import Mathlib

/-!
# Verification of the BGP.Tools-OpenDB MMDB build pipeline

This file gives a shallow embedding of the MMDB build pipeline of the
BGP.Tools-OpenDB repository and proves properties of it.

The embedded code consists of

* the JavaScript side (`src/src/fetchers/table.js` and
  `src/src/processors/mmdb.js`): `parseTableData`, `separateByIPVersion`,
  `convertToCSV`, and the record stream `generateMMDB` hands to the Go helper;
* the Go side (`src/lib/mmdbwriter/main.go`): the per-row ingestion loop
  `processCSVFile`, with CIDR parsing modelled after `net.ParseCIDR`, ASN
  parsing modelled after `strconv.ParseUint(_, 10, 32)`, record construction,
  and the classification of trie-insertion errors by substring matching;
* the output phase of `main` in `main.go`, as a trace of file-system effects.

The trie-insertion operation itself lives in the third-party
`github.com/maxmind/mmdbwriter` dependency; the embedding therefore treats
insertion as an oracle `InsertOracle` returning either success or an error
message, exactly the interface `main.go` observes.
-/

set_option autoImplicit false

namespace BGPDB

/-! ## Character and string utilities

The Go code uses `strings.TrimSpace`, `strings.Contains` and the column
splitting of `encoding/csv`; the JavaScript code uses `String.trim`,
`String.includes` and `split`.  These are modelled below on `List Char`,
which keeps every definition kernel-computable. -/

/-- Whitespace as trimmed by `strings.TrimSpace` / `String.trim`
(restricted to the ASCII whitespace that occurs in the data). -/
def isSpaceChar (c : Char) : Bool :=
  c = ' ' || c = '\t' || c = '\n' || c = '\r'

/-- Model of Go `strings.TrimSpace` and JS `String.prototype.trim`. -/
def goTrim (s : String) : String :=
  ⟨((s.data.dropWhile isSpaceChar).reverse.dropWhile isSpaceChar).reverse⟩

/-- Does `pre` occur at the head of `l`? -/
def hasPrefixChars : List Char → List Char → Bool
  | [], _ => true
  | _ :: _, [] => false
  | a :: as, b :: bs => a = b && hasPrefixChars as bs

/-- Does `needle` occur as a contiguous run inside `hay`? -/
def hasInfixChars (needle : List Char) : List Char → Bool
  | [] => needle.isEmpty
  | c :: rest => hasPrefixChars needle (c :: rest) || hasInfixChars needle rest

/-- Model of Go `strings.Contains hay needle`. -/
def goContains (hay needle : String) : Bool :=
  hasInfixChars needle.data hay.data

/-- Split a character list at every occurrence of `sep`
(model of `strings.Split` / JS `split` for a one-character separator). -/
def splitChar (sep : Char) : List Char → List (List Char)
  | [] => [[]]
  | c :: rest =>
    match splitChar sep rest with
    | [] => [[]]
    | g :: gs => if c = sep then [] :: g :: gs else (c :: g) :: gs

/-- Split a character list at the first occurrence of `sep`, or `none` when
`sep` does not occur (model of splitting at the first `/` in
`net.ParseCIDR`). -/
def splitFirst (sep : Char) : List Char → Option (List Char × List Char)
  | [] => none
  | c :: rest =>
    if c = sep then some ([], rest)
    else (splitFirst sep rest).map (fun p => (c :: p.1, p.2))

/-! ## Address parsing, modelled after `net.ParseCIDR`

`main.go` validates the first CSV column with `net.ParseCIDR`.  The model
below reproduces the Go standard library behaviour on the inputs this
pipeline can produce: dotted-quad IPv4 (leading zeros rejected, octets at
most 255), colon-hex IPv6 with one optional `::` compression and an optional
embedded IPv4 tail, a decimal mask bounded by the family's bit width, and
masking of host bits in the returned network.  (IPv4-mapped IPv6 prefixes
are kept in the v6 family here; Go would narrow them to v4.  No claim
depends on that corner.) -/

/-- Value of a decimal digit list; `none` on empty input or a non-digit. -/
def parseDecimal (cs : List Char) : Option Nat :=
  if cs = [] then none
  else cs.foldlM (fun acc c => if c.isDigit then some (acc * 10 + (c.toNat - 48)) else none) 0

/-- One dotted-quad octet: 1–3 digits, no leading zero, value at most 255. -/
def parseOctet (cs : List Char) : Option Nat :=
  if cs.length = 0 || 3 < cs.length then none
  else if 1 < cs.length && cs.headD 'x' = '0' then none
  else match parseDecimal cs with
    | none => none
    | some n => if n ≤ 255 then some n else none

/-- Dotted-quad IPv4 address as a 32-bit value. -/
def parseIPv4Chars (cs : List Char) : Option Nat :=
  match splitChar '.' cs with
  | [a, b, c, d] => do
    let a ← parseOctet a
    let b ← parseOctet b
    let c ← parseOctet c
    let d ← parseOctet d
    pure (((a * 256 + b) * 256 + c) * 256 + d)
  | _ => none

/-- Value of a hexadecimal digit. -/
def hexDigitVal (c : Char) : Option Nat :=
  if '0' ≤ c ∧ c ≤ '9' then some (c.toNat - 48)
  else if 'a' ≤ c ∧ c ≤ 'f' then some (c.toNat - 87)
  else if 'A' ≤ c ∧ c ≤ 'F' then some (c.toNat - 55)
  else none

/-- One IPv6 group: 1–4 hexadecimal digits. -/
def parseHexGroup (cs : List Char) : Option Nat :=
  if cs.length = 0 || 4 < cs.length then none
  else cs.foldlM (fun acc c => (hexDigitVal c).map (fun d => acc * 16 + d)) 0

/-- Parse a `:`-separated group list; an embedded dotted-quad is allowed in
the final group and contributes two 16-bit groups. -/
def parseGroupsV6 : List (List Char) → Option (List Nat)
  | [] => some []
  | [g] =>
    if g.contains '.' then (parseIPv4Chars g).map (fun v => [v / 65536, v % 65536])
    else (parseHexGroup g).map (fun n => [n])
  | g :: rest => do
    let n ← parseHexGroup g
    let ns ← parseGroupsV6 rest
    pure (n :: ns)

/-- Combine 16-bit groups into a 128-bit value. -/
def groupsValue (gs : List Nat) : Nat :=
  gs.foldl (fun acc g => acc * 65536 + g) 0

/-- Split at the first `::`, when present. -/
def splitDoubleColon : List Char → Option (List Char × List Char)
  | [] => none
  | [_] => none
  | a :: b :: rest =>
    if a = ':' ∧ b = ':' then some ([], rest)
    else (splitDoubleColon (b :: rest)).map (fun p => (a :: p.1, p.2))

/-- Colon-hex IPv6 address as a 128-bit value, with at most one `::`. -/
def parseIPv6Chars (cs : List Char) : Option Nat :=
  match splitDoubleColon cs with
  | none => do
    let ns ← parseGroupsV6 (splitChar ':' cs)
    if ns.length = 8 then some (groupsValue ns) else none
  | some (l, r) =>
    if (splitDoubleColon r).isSome then none
    else do
      let lns ← parseGroupsV6 (if l = [] then [] else splitChar ':' l)
      let rns ← parseGroupsV6 (if r = [] then [] else splitChar ':' r)
      if lns.length + rns.length ≤ 7 then
        some (groupsValue (lns ++ List.replicate (8 - lns.length - rns.length) 0 ++ rns))
      else none

/-- Address family detection as in Go `parseIP`: the first of `.` or `:`
decides; neither present means the parse fails. `some false` is IPv4,
`some true` is IPv6. -/
def addrFamily : List Char → Option Bool
  | [] => none
  | c :: rest =>
    if c = '.' then some false
    else if c = ':' then some true
    else addrFamily rest

/-- A parsed network as returned by `net.ParseCIDR`: family, masked network
address value and mask length. -/
structure IPNet where
  v6 : Bool
  addr : Nat
  maskLen : Nat
deriving DecidableEq

/-- Bit width of an address family. -/
def maskBits (v6 : Bool) : Nat := if v6 then 128 else 32

/-- Model of `net.ParseCIDR`: split at the first `/`, parse the address by
family, parse the decimal mask (bounded by the family's bit width; the
standard library's `dtoi` does not reject leading zeros in the mask), and
zero the host bits of the address. -/
def parseCIDR (s : String) : Option IPNet := do
  let (addr, mask) ← splitFirst '/' s.data
  let fam ← addrFamily addr
  let v ← if fam then parseIPv6Chars addr else parseIPv4Chars addr
  let n ← parseDecimal mask
  let bits := maskBits fam
  if n ≤ bits then
    some { v6 := fam, addr := v / 2 ^ (bits - n) * 2 ^ (bits - n), maskLen := n }
  else none

/-- Model of Go `strconv.ParseUint(s, 10, 32)`: a non-empty all-digit string
whose value fits in 32 bits (leading zeros accepted); `main.go` skips the
row whenever this errors, including on range overflow. -/
def parseGoUint32 (s : String) : Option Nat := do
  let n ← parseDecimal s.data
  if n < 4294967296 then some n else none

/-! ## The Go ingestion driver (`processCSVFile` in `src/lib/mmdbwriter/main.go`)

The driver is embedded at the level of already-split CSV rows
(`List String`); the `encoding/csv` column splitting is modelled separately
below for the end-to-end pipeline.  Trie insertion (the third-party
`mmdbwriter.Tree.Insert`) is an oracle returning `none` on success or
`some msg` with the error message text, which is exactly what `main.go`
inspects. -/

/-- The skip classifications the driver's diagnostics distinguish:
an unparsable CIDR, an unparsable ASN, and an insertion error whose message
marks an aliased / reserved / private network. -/
inductive SkipReason where
  | invalidCIDR
  | invalidASN
  | reservedNet
deriving DecidableEq

/-- A record as built by `main.go`: `mmdbtype.Map` with the
`autonomous_system_number` entry present only when the parsed ASN is
nonzero, and the `autonomous_system_organization` entry present only when a
third column exists and is nonempty after trimming. -/
structure MRecord where
  asn : Option Nat
  org : Option String
deriving DecidableEq

/-- The observable state accumulated by `processCSVFile`: the count of
successfully inserted records, the skipped rows with the raw text the
diagnostic prints and the reason, and the log of trie insertions. -/
structure GoState where
  recordCount : Nat
  skipped : List (String × SkipReason)
  inserts : List (IPNet × MRecord)
deriving DecidableEq

/-- The state at the start of `processCSVFile`. -/
def initState : GoState := ⟨0, [], []⟩

/-- The trie-insertion boundary (`writer.Insert`): `none` on success, or the
error message text of the failure. -/
def InsertOracle : Type := IPNet → MRecord → Option String

/-- An insertion oracle that always succeeds. -/
def insAlwaysOk : InsertOracle := fun _ _ => none

/-- First CSV column after `strings.TrimSpace` (the `network` variable). -/
def rowNetworkText (row : List String) : String := goTrim (row.getD 0 "")

/-- Second CSV column after `strings.TrimSpace` (the `asnStr` variable). -/
def rowASNText (row : List String) : String := goTrim (row.getD 1 "")

/-- Record construction in `main.go`: the ASN field is added only when the
parsed value is nonzero, and the organization field only when a nonempty
(after trimming) third column exists. -/
def buildRecord (asn : Nat) (row : List String) : MRecord :=
  { asn := if asn ≠ 0 then some asn else none,
    org :=
      if 3 ≤ row.length ∧ goTrim (row.getD 2 "") ≠ "" then some (goTrim (row.getD 2 ""))
      else none }

/-- The substring test `main.go` applies to an insertion error before
deciding to skip instead of aborting. -/
def reservedErrMsg (msg : String) : Bool :=
  goContains msg "aliased network" || goContains msg "reserved network" ||
    goContains msg "private network"

/-- The error text `main.go` wraps a fatal insertion error in. -/
def insertFailMsg (row : List String) (msg : String) : String :=
  "failed to insert record for " ++ rowNetworkText row ++ ": " ++ msg

/-- One iteration of the row loop of `processCSVFile`:
rows with fewer than two columns are dropped with no diagnostic; an
unparsable CIDR or ASN is skipped with a diagnostic; an insertion error is
skipped when `reservedErrMsg` matches and aborts the run otherwise; a
successful insertion is counted.  A fatal abort carries the state
accumulated so far (the partial report). -/
def processRow (ins : InsertOracle) (st : GoState) (row : List String) :
    Except (String × GoState) GoState :=
  if row.length < 2 then Except.ok st
  else
    match parseCIDR (rowNetworkText row) with
    | none =>
      Except.ok { st with skipped := st.skipped ++ [(rowNetworkText row, SkipReason.invalidCIDR)] }
    | some cidr =>
      match parseGoUint32 (rowASNText row) with
      | none =>
        Except.ok { st with skipped := st.skipped ++ [(rowASNText row, SkipReason.invalidASN)] }
      | some asn =>
        match ins cidr (buildRecord asn row) with
        | some msg =>
          if reservedErrMsg msg then
            Except.ok
              { st with skipped := st.skipped ++ [(rowNetworkText row, SkipReason.reservedNet)] }
          else Except.error (insertFailMsg row msg, st)
        | none =>
          Except.ok
            { st with
              recordCount := st.recordCount + 1
              inserts := st.inserts ++ [(cidr, buildRecord asn row)] }

/-- The row loop of `processCSVFile`, processing rows in order and stopping
at the first fatal error. -/
def processRows (ins : InsertOracle) : GoState → List (List String) →
    Except (String × GoState) GoState
  | st, [] => Except.ok st
  | st, row :: rest =>
    match processRow ins st row with
    | Except.ok st2 => processRows ins st2 rest
    | Except.error e => Except.error e

/-- The row loop of `processCSVFile` as it composes with `encoding/csv`'s
reader: with the default `FieldsPerRecord = 0`, the first record read (the
header) fixes the required field count, and every later `r.Read()` returns
`ErrFieldCount` for a record of a different width, which `main.go` turns
into the fatal `failed to read CSV row` error before the record is
processed.  The check therefore sits at the head of each loop iteration,
interleaved with row processing exactly as the reads are. -/
def processRowsChecked (ins : InsertOracle) (width : Nat) :
    GoState → List (List String) → Except (String × GoState) GoState
  | st, [] => Except.ok st
  | st, row :: rest =>
    if row.length ≠ width then
      Except.error ("failed to read CSV row: record has wrong number of fields", st)
    else
      match processRow ins st row with
      | Except.ok st2 => processRowsChecked ins width st2 rest
      | Except.error e => Except.error e

/-- On inputs whose rows all have the expected width — every row the real
reader would deliver — the checked loop is exactly the data-processing
loop. -/
theorem processRowsChecked_eq_processRows (ins : InsertOracle) (width : Nat) :
    ∀ (rows : List (List String)) (st : GoState), (∀ r ∈ rows, r.length = width) →
      processRowsChecked ins width st rows = processRows ins st rows := by
  intro rows
  induction rows with
  | nil => intro st _; rfl
  | cons row rest ih =>
    intro st hw
    have hrow : row.length = width := hw row (List.mem_cons_self row rest)
    have hrest : ∀ r ∈ rest, r.length = width := fun r hr => hw r (List.mem_cons_of_mem row hr)
    simp only [processRowsChecked, processRows, hrow, ne_eq, not_true_eq_false, if_false]
    cases hstep : processRow ins st row with
    | ok st2 => simp only [ih st2 hrest]
    | error e => rfl

/-- Model of `processCSVFile` on an already-split row list: the first row is
consumed unconditionally as the header (`r.Read()` before the loop, failing
only when the input is empty); its only trace is the field count it fixes
for the reader, and every following row goes through the width-checked row
loop. -/
def processCSVFile (ins : InsertOracle) (rows : List (List String)) :
    Except (String × GoState) GoState :=
  match rows with
  | [] => Except.error ("failed to read CSV header", initState)
  | header :: rest => processRowsChecked ins header.length initState rest

/-! ## The JavaScript side (`table.js` and `mmdb.js`)

`parseTableData` receives one JSON value per (non-empty, trimmed) line of
the JSONL routing table.  JSON parsing itself is the JS runtime's; a line
is embedded as `none` when `JSON.parse` throws and as `some JEntry`
otherwise, with each of the three fields the code reads present or absent.
Field values are embedded as `JsValue` with JavaScript truthiness. -/

/-- A JSON field value as far as this pipeline inspects it. -/
inductive JsValue where
  | vNull
  | vBool (b : Bool)
  | vNum (n : Int)
  | vStr (s : String)
deriving DecidableEq

/-- JavaScript truthiness of the embedded values (an absent field behaves
like `undefined`, which is falsy). -/
def truthy : JsValue → Bool
  | JsValue.vNull => false
  | JsValue.vBool b => b
  | JsValue.vNum n => n ≠ 0
  | JsValue.vStr s => s ≠ ""

/-- The three fields of a parsed JSONL routing-table line that
`parseTableData` reads; `none` is an absent property. -/
structure JEntry where
  CIDR : Option JsValue
  ASN : Option JsValue
  Hits : Option JsValue
deriving DecidableEq

/-- Truthiness of a possibly-absent property (`entry.CIDR && entry.ASN`). -/
def truthyField (o : Option JsValue) : Bool :=
  match o with
  | none => false
  | some v => truthy v

/-- JS `a || b`. -/
def jsOr (a b : JsValue) : JsValue := if truthy a then a else b

/-- Reading a possibly-absent property yields `undefined`, embedded as
`vNull` (both are falsy and neither occurs inside a kept entry unchanged
unless truthy). -/
def fieldVal (o : Option JsValue) : JsValue := o.getD JsValue.vNull

/-- An element of the array `parseTableData` returns. -/
structure TableEntry where
  CIDR : JsValue
  ASN : JsValue
  Hits : JsValue
deriving DecidableEq

/-- Model of `parseTableData` from `table.js`: keep a line only when it parsed as
JSON and both `CIDR` and `ASN` are truthy; `Hits` defaults to `1` when
falsy or absent. -/
def parseTableData : List (Option JEntry) → List TableEntry
  | [] => []
  | none :: rest => parseTableData rest
  | some e :: rest =>
    if truthyField e.CIDR && truthyField e.ASN then
      { CIDR := fieldVal e.CIDR, ASN := fieldVal e.ASN,
        Hits := jsOr (fieldVal e.Hits) (JsValue.vNum 1) } :: parseTableData rest
    else parseTableData rest

/-- Model of `entry.CIDR.includes(":")`: defined on strings, a thrown `TypeError`
(modelled as `none`) on any other value. -/
def entryIsV6 (e : TableEntry) : Option Bool :=
  match e.CIDR with
  | JsValue.vStr s => some (s.data.contains ':')
  | _ => none

/-- Model of `separateByIPVersion` from `table.js`: partition into IPv4 and IPv6 by
whether the CIDR text contains a colon, preserving order inside each part;
`none` when some entry's CIDR is not a string. -/
def separateByIPVersion : List TableEntry → Option (List TableEntry × List TableEntry)
  | [] => some ([], [])
  | e :: rest => do
    let b ← entryIsV6 e
    let (v4, v6) ← separateByIPVersion rest
    pure (if b then (v4, e :: v6) else (e :: v4, v6))

/-- The entry stream `generateMMDB` in `mmdb.js` feeds to `convertToCSV`:
`[...ipv4, ...ipv6]` of the separated parse of the raw table data. -/
def generateMMDBStream (ls : List (Option JEntry)) : Option (List TableEntry) :=
  match separateByIPVersion (parseTableData ls) with
  | none => none
  | some (v4, v6) => some (v4 ++ v6)

/-- Rendering of a value inside a JS template literal. -/
def jsTemplateStr : JsValue → String
  | JsValue.vNull => "null"
  | JsValue.vBool b => if b then "true" else "false"
  | JsValue.vNum n => toString n
  | JsValue.vStr s => s

/-- One CSV row emitted by `convertToCSV` in `mmdb.js`:
`"CIDR",ASN,Hits||0`. -/
def convertToCSVRow (e : TableEntry) : String :=
  "\"" ++ jsTemplateStr e.CIDR ++ "\"," ++ jsTemplateStr e.ASN ++ ","
    ++ jsTemplateStr (jsOr e.Hits (JsValue.vNum 0))

/-- Join lines with a newline (JS `rows.join("\n")`). -/
def joinLines : List String → String
  | [] => ""
  | [x] => x
  | x :: y :: rest => x ++ "\n" ++ joinLines (y :: rest)

/-- Model of `convertToCSV` from `mmdb.js`: a `network,asn,hits` header line followed
by one row per entry. -/
def convertToCSV (td : List TableEntry) : String :=
  "network,asn,hits\n" ++ joinLines (td.map convertToCSVRow)

/-! ## CSV column splitting (`encoding/csv` on the generated file)

The Go binary reads the generated CSV back with `encoding/csv`.  The model
below covers the reader's behaviour on single-line records: double-quoted
fields with `""` escapes, bare quotes inside unquoted fields rejected, and
blank lines skipped. -/

/-- State of the per-line CSV field scanner. -/
inductive CSVMode where
  | fieldStart
  | unquoted
  | quoted
  | afterQuote

/-- Scan one CSV line into fields; `none` models an `encoding/csv` parse
error (bare quote, unterminated quote, garbage after a closing quote). -/
def splitCSVAux : CSVMode → String → List String → List Char → Option (List String)
  | CSVMode.quoted, _, _, [] => none
  | _, cur, fs, [] => some (fs ++ [cur])
  | CSVMode.fieldStart, cur, fs, c :: rest =>
    if c = '"' then splitCSVAux CSVMode.quoted cur fs rest
    else if c = ',' then splitCSVAux CSVMode.fieldStart "" (fs ++ [cur]) rest
    else splitCSVAux CSVMode.unquoted (cur.push c) fs rest
  | CSVMode.unquoted, cur, fs, c :: rest =>
    if c = ',' then splitCSVAux CSVMode.fieldStart "" (fs ++ [cur]) rest
    else if c = '"' then none
    else splitCSVAux CSVMode.unquoted (cur.push c) fs rest
  | CSVMode.quoted, cur, fs, c :: rest =>
    if c = '"' then splitCSVAux CSVMode.afterQuote cur fs rest
    else splitCSVAux CSVMode.quoted (cur.push c) fs rest
  | CSVMode.afterQuote, cur, fs, c :: rest =>
    if c = '"' then splitCSVAux CSVMode.quoted (cur.push '"') fs rest
    else if c = ',' then splitCSVAux CSVMode.fieldStart "" (fs ++ [cur]) rest
    else none

/-- Split one CSV line into its fields. -/
def splitCSVLine (cs : List Char) : Option (List String) :=
  splitCSVAux CSVMode.fieldStart "" [] cs

/-- Read a whole CSV text into field rows, skipping blank lines as
`encoding/csv` does.  This models only the lexical layer of the reader;
the reader's `FieldsPerRecord` rule (the first record fixes the field
count, later records of a different width fail at `Read()`) is enforced in
`processRowsChecked`, at the point the driver performs each read, because
`main.go` interleaves reads with row processing. -/
def parseCSV (s : String) : Option (List (List String)) :=
  ((splitChar '\n' s.data).filter (fun l => l ≠ [])).mapM splitCSVLine

/-- The composed pipeline from parsed JSONL lines to the Go driver's
result: `generateMMDB` builds the CSV text from the separated entries and
the Go binary ingests it row by row. -/
def pipelineRun (ls : List (Option JEntry)) (ins : InsertOracle) :
    Option (Except (String × GoState) GoState) := do
  let stream ← generateMMDBStream ls
  let rows ← parseCSV (convertToCSV stream)
  pure (processCSVFile ins rows)

/-! ## The output phase of `main` (`main.go`)

After `processCSVFile` succeeds, `main` ensures the output directory
exists, opens the output file with `os.Create(outputFile)` — the real
destination, truncating it — and streams the serialized database into it
with `writer.WriteTo(fh)`, exiting fatally on error.  The phase is embedded
as the trace of file-system effects it performs, parametrised by how many
bytes the (third-party) serializer wrote before succeeding or failing. -/

/-- File-system effects the output phase can perform. -/
inductive FsEffect where
  | mkdirAll (path : String)
  | createFile (path : String)
  | writeBytes (path : String) (n : Nat)
deriving DecidableEq

/-- The path an effect touches. -/
def effPath : FsEffect → String
  | FsEffect.mkdirAll p => p
  | FsEffect.createFile p => p
  | FsEffect.writeBytes p _ => p

/-- Approximate model of `filepath.Dir` (path cleaning omitted): everything
before the last `/`, or `.` when there is none. -/
def dirOf (s : String) : String :=
  match splitFirst '/' s.data.reverse with
  | none => "."
  | some (_, revDir) => if revDir = [] then "/" else ⟨revDir.reverse⟩

/-- The effect trace and exit status of `main`'s output phase: optional
`MkdirAll` on the output directory, `os.Create` on the output file itself,
then the serializer's bytes written to it; the second component is the
process success flag (`log.Fatal` on a `WriteTo` error). -/
def mainWriteEffects (outputFile : String) (written : Nat) (ok : Bool) :
    List FsEffect × Bool :=
  let dir := dirOf outputFile
  ((if dir ≠ "." then [FsEffect.mkdirAll dir] else []) ++
    [FsEffect.createFile outputFile, FsEffect.writeBytes outputFile written], ok)

/-! ## Derived notions and helper lemmas -/

/-- The per-line classification stated by the claim about
`parseTableData`: drop lines that failed to parse, keep a parsed line
exactly when `CIDR` and `ASN` are both truthy, and default `Hits` to `1`
when absent or falsy. -/
def lineKeep (l : Option JEntry) : Option TableEntry :=
  match l with
  | none => none
  | some e =>
    if truthyField e.CIDR && truthyField e.ASN then
      some { CIDR := fieldVal e.CIDR, ASN := fieldVal e.ASN,
             Hits := if truthyField e.Hits then fieldVal e.Hits else JsValue.vNum 1 }
    else none

/-- Is the entry's CIDR a string value? -/
def isStrCIDR (e : TableEntry) : Bool :=
  match e.CIDR with
  | JsValue.vStr _ => true
  | _ => false

/-- Does the entry's CIDR text contain a colon (the IPv6 test of
`separateByIPVersion`)?  False on non-string values, which only arise where
the JS code would already have thrown. -/
def hasColonCIDR (e : TableEntry) : Bool :=
  match e.CIDR with
  | JsValue.vStr s => s.data.contains ':'
  | _ => false

theorem truthy_fieldVal (o : Option JsValue) : truthy (fieldVal o) = truthyField o := by
  cases o <;> rfl

theorem entryIsV6_eq (e : TableEntry) (h : isStrCIDR e = true) :
    entryIsV6 e = some (hasColonCIDR e) := by
  unfold isStrCIDR at h
  unfold entryIsV6 hasColonCIDR
  cases hc : e.CIDR <;> simp [hc] at h ⊢

/-- On entries whose CIDR is a string, `separateByIPVersion` is the ordered
partition by the colon test. -/
theorem sep_eq (td : List TableEntry) (h : td.all isStrCIDR = true) :
    separateByIPVersion td =
      some (td.filter (fun e => !hasColonCIDR e), td.filter hasColonCIDR) := by
  induction td with
  | nil => rfl
  | cons e rest ih =>
    rw [List.all_cons, Bool.and_eq_true] at h
    simp only [separateByIPVersion, entryIsV6_eq e h.1, ih h.2, Option.bind_some,
      Option.some_bind, List.filter_cons]
    by_cases hb : hasColonCIDR e = true <;> simp [hb]

/-- Every successfully processed row contributes exactly one accepted
record or one attributed skip when it has at least two fields, and nothing
at all otherwise. -/
theorem processRow_ok_count (ins : InsertOracle) (st : GoState) (row : List String)
    (st2 : GoState) (h : processRow ins st row = Except.ok st2) :
    st2.recordCount + st2.skipped.length =
      st.recordCount + st.skipped.length + (if 2 ≤ row.length then 1 else 0) := by
  unfold processRow at h
  by_cases hl : row.length < 2
  · rw [if_pos hl] at h
    cases h
    rw [if_neg (by omega)]
    omega
  · rw [if_neg hl] at h
    rw [if_pos (by omega)]
    cases hp : parseCIDR (rowNetworkText row) with
    | none =>
      rw [hp] at h
      cases h
      simp
      omega
    | some net =>
      rw [hp] at h
      simp only at h
      cases ha : parseGoUint32 (rowASNText row) with
      | none =>
        rw [ha] at h
        cases h
        simp
        omega
      | some a =>
        rw [ha] at h
        simp only at h
        cases hi : ins net (buildRecord a row) with
        | none =>
          rw [hi] at h
          cases h
          simp
          omega
        | some msg =>
          rw [hi] at h
          simp only at h
          by_cases hr : reservedErrMsg msg = true
          · rw [if_pos hr] at h
            cases h
            simp
            omega
          · rw [if_neg hr] at h
            cases h

/-! ## Concrete fixtures used by counterexamples and witnesses -/

/-- The network `1.0.0.0/24` as `net.ParseCIDR` returns it
(`16777216 = 0x01000000`). -/
def net1 : IPNet := ⟨false, 16777216, 24⟩

/-- An insertion oracle that always fails with an aliased-network message,
as `mmdbwriter` does for prefixes on its alias deny-list. -/
def insReservedMsg : InsertOracle :=
  fun _ _ => some "cannot insert into aliased network 1.0.0.0/8"

/-- Two parsed JSONL lines, IPv6 first, used to exhibit the family
reordering of the stream handed to the MMDB builder. -/
def wLines : List (Option JEntry) :=
  [some ⟨some (JsValue.vStr "2001:db8::/32"), some (JsValue.vNum 1), none⟩,
    some ⟨some (JsValue.vStr "1.0.0.0/24"), some (JsValue.vNum 2), none⟩]

/-! ## Claims -/

/-- C1, counterexample.  The claim says a record whose identifier parses as
zero is classified `Skipped(InvalidIdentifier)` and not inserted.  On the
code, the row `1.0.0.0/24,0` parses fine, is NOT skipped (the skip list of
the run stays empty), and IS inserted into the trie — merely without the
`autonomous_system_number` attribute; the following record is processed as
well. -/
theorem C1_zero_asn_counterexample :
    processCSVFile insAlwaysOk [["network", "asn"], ["1.0.0.0/24", "0"], ["2.0.0.0/24", "5"]] =
      Except.ok ⟨2, [], [(net1, ⟨none, none⟩), (⟨false, 33554432, 24⟩, ⟨some 5, none⟩)]⟩ := by
  rfl

/-- C1, amended.  A record whose identifier field parses as the unsigned
integer zero is not skipped: it is inserted into the trie with the
identifier attribute omitted from its record, and processing of subsequent
records continues.  (Only identifier fields that fail to parse are skipped,
which is the `parseGoUint32 _ = none` branch of `processRow`.) -/
theorem C1_zero_asn_amended (ins : InsertOracle) (st : GoState) (row : List String)
    (rest : List (List String)) (net : IPNet)
    (hlen : 2 ≤ row.length) (hp : parseCIDR (rowNetworkText row) = some net)
    (ha : parseGoUint32 (rowASNText row) = some 0)
    (hins : ins net (buildRecord 0 row) = none) :
    processRows ins st (row :: rest) =
      processRows ins
        { st with
          recordCount := st.recordCount + 1
          inserts := st.inserts ++ [(net, buildRecord 0 row)] } rest ∧
      (buildRecord 0 row).asn = none := by
  constructor
  · have hstep : processRow ins st row =
        Except.ok
          { st with
            recordCount := st.recordCount + 1
            inserts := st.inserts ++ [(net, buildRecord 0 row)] } := by
      unfold processRow
      rw [if_neg (by omega : ¬ row.length < 2)]
      simp only [hp, ha, hins]
    simp only [processRows, hstep]
  · simp [buildRecord]

/-- C1, witness for the amended claim at the concrete row `1.0.0.0/24,0`. -/
theorem C1_zero_asn_amended_witness :
    processRows insAlwaysOk initState [["1.0.0.0/24", "0"], ["2.0.0.0/24", "5"]] =
      processRows insAlwaysOk
        { initState with
          recordCount := initState.recordCount + 1
          inserts := initState.inserts ++ [(net1, buildRecord 0 ["1.0.0.0/24", "0"])] }
        [["2.0.0.0/24", "5"]] ∧
      (buildRecord 0 ["1.0.0.0/24", "0"]).asn = none :=
  C1_zero_asn_amended insAlwaysOk initState ["1.0.0.0/24", "0"] [["2.0.0.0/24", "5"]] net1
    (by decide) (by decide) (by decide) rfl

/-- C2.  When trie insertion fails and the error message marks an aliased,
reserved or private network, the driver records the row as skipped with the
reserved-network reason and continues with the remaining rows; any other
insertion error aborts the whole run as a fatal error carrying the state
(partial report) accumulated so far. -/
theorem C2_insert_error_policy (ins : InsertOracle) (st : GoState) (row : List String)
    (rest : List (List String)) (net : IPNet) (a : Nat) (msg : String)
    (hlen : 2 ≤ row.length) (hp : parseCIDR (rowNetworkText row) = some net)
    (ha : parseGoUint32 (rowASNText row) = some a)
    (hins : ins net (buildRecord a row) = some msg) :
    (reservedErrMsg msg = true →
      processRows ins st (row :: rest) =
        processRows ins
          { st with skipped := st.skipped ++ [(rowNetworkText row, SkipReason.reservedNet)] }
          rest) ∧
    (reservedErrMsg msg = false →
      processRows ins st (row :: rest) = Except.error (insertFailMsg row msg, st)) := by
  constructor
  · intro hr
    have hstep : processRow ins st row =
        Except.ok
          { st with skipped := st.skipped ++ [(rowNetworkText row, SkipReason.reservedNet)] } := by
      unfold processRow
      rw [if_neg (by omega : ¬ row.length < 2)]
      simp only [hp, ha, hins, if_pos hr]
    simp only [processRows, hstep]
  · intro hr
    have hstep : processRow ins st row = Except.error (insertFailMsg row msg, st) := by
      unfold processRow
      rw [if_neg (by omega : ¬ row.length < 2)]
      simp only [hp, ha, hins, hr, Bool.false_eq_true, if_false]
    simp only [processRows, hstep]

/-- C2, witness at the concrete row `1.0.0.0/24,5` under an oracle that
reports an aliased-network insertion failure. -/
theorem C2_insert_error_policy_witness :
    (reservedErrMsg "cannot insert into aliased network 1.0.0.0/8" = true →
      processRows insReservedMsg initState [["1.0.0.0/24", "5"]] =
        processRows insReservedMsg
          { initState with
            skipped := initState.skipped ++ [("1.0.0.0/24", SkipReason.reservedNet)] } []) ∧
    (reservedErrMsg "cannot insert into aliased network 1.0.0.0/8" = false →
      processRows insReservedMsg initState [["1.0.0.0/24", "5"]] =
        Except.error
          (insertFailMsg ["1.0.0.0/24", "5"] "cannot insert into aliased network 1.0.0.0/8",
            initState)) :=
  C2_insert_error_policy insReservedMsg initState ["1.0.0.0/24", "5"] [] net1 5
    "cannot insert into aliased network 1.0.0.0/8" (by decide) (by decide) (by decide) rfl

/-- C3, counterexample.  The claim says a failing serialization leaves no
partial output at the real destination because partial bytes go to a
temporary location and are promoted only on success.  On the code, a run
whose serializer fails after writing 5 bytes has created and written the
real destination path `asn.mmdb` itself — every effect of the output phase
targets the destination, there is no temporary path and no promotion
step. -/
theorem C3_partial_output_counterexample :
    mainWriteEffects "asn.mmdb" 5 false =
      ([FsEffect.createFile "asn.mmdb", FsEffect.writeBytes "asn.mmdb" 5], false) ∧
    ((mainWriteEffects "asn.mmdb" 5 false).1.all
      (fun e => decide (effPath e = "asn.mmdb"))) = true := by
  decide

/-- C3, amended.  A failing serialization still aborts the build fatally
(the exit flag is false), but the output file is created at the real
destination before serialization and the partial bytes are written directly
to it; the only paths the output phase ever touches are the destination and
its parent directory. -/
theorem C3_output_phase_amended (out : String) (n : Nat) :
    (mainWriteEffects out n false).2 = false ∧
    FsEffect.createFile out ∈ (mainWriteEffects out n false).1 ∧
    FsEffect.writeBytes out n ∈ (mainWriteEffects out n false).1 ∧
    ((mainWriteEffects out n false).1.all
      (fun e => decide (effPath e = out ∨ effPath e = dirOf out))) = true := by
  unfold mainWriteEffects
  by_cases hd : dirOf out = "."
  · simp [hd, effPath]
  · simp [hd, effPath]

/-- C5.  The `Hits` field is not dropped before the trie build: for the
routing-table entry with CIDR `1.0.0.0/24`, ASN `13335` and `Hits` `5`,
`convertToCSV` emits the hit count as the third CSV column, and the Go
ingester — whose own comment calls the third column the organization
name — stores it in the inserted record as
`autonomous_system_organization = "5"`.  The hit count therefore reaches
the record inserted into the trie, contradicting the claim. -/
theorem C5_hits_reach_record :
    pipelineRun
        [some ⟨some (JsValue.vStr "1.0.0.0/24"), some (JsValue.vNum 13335),
          some (JsValue.vNum 5)⟩]
        insAlwaysOk =
      some (Except.ok ⟨1, [], [(net1, ⟨some 13335, some "5"⟩)]⟩) := by
  rfl

/-- C6.  The driver consumes exactly the first row as the header, before
the row loop sees any record, and performs no header detection: the
header's content is never inspected — its only trace is the field count the
CSV reader fixes from the first record, so runs whose first rows have equal
width coincide exactly.  Every record the reader delivers to the loop (that
is, every remaining row of the expected width) is treated as data; in
particular a row that looks like a header but arrives after the first row
is validated as data and skipped as an unparsable CIDR, entering the
report. -/
theorem C6_header_handling (ins : InsertOracle) (h h' : List String)
    (rows : List (List String)) :
    processCSVFile ins (h :: rows) = processRowsChecked ins h.length initState rows ∧
    (h.length = h'.length →
      processCSVFile ins (h :: rows) = processCSVFile ins (h' :: rows)) ∧
    ((∀ r ∈ rows, r.length = h.length) →
      processCSVFile ins (h :: rows) = processRows ins initState rows) ∧
    (h.length = 3 →
      processCSVFile ins [h, ["network", "asn", "hits"]] =
        Except.ok ⟨0, [("network", SkipReason.invalidCIDR)], []⟩) := by
  refine ⟨rfl, ?_, ?_, ?_⟩
  · intro hl
    simp only [processCSVFile]
    rw [hl]
  · intro hw
    exact processRowsChecked_eq_processRows ins h.length rows initState hw
  · intro hl
    simp only [processCSVFile]
    rw [hl]
    rfl

/-- C6, witness: a three-column header over one conforming data row — the
run equals the plain data-processing loop over the remaining row, with the
hypotheses of the theorem discharged concretely. -/
theorem C6_header_handling_witness :
    processCSVFile insAlwaysOk [["network", "asn", "hits"], ["1.0.0.0/24", "5", ""]] =
      processRows insAlwaysOk initState [["1.0.0.0/24", "5", ""]] :=
  (C6_header_handling insAlwaysOk ["network", "asn", "hits"] ["a", "b", "c"]
    [["1.0.0.0/24", "5", ""]]).2.2.1 (by decide)

/-- C7, counterexample.  The claim says every record not accepted into the
trie is attributed a skip reason in the report.  On the code, a data row
with a single field (after a single-field header, so the CSV reader's
field-count check also passes) is dropped by the `len(row) < 2` branch with
no diagnostic: the run accepts nothing and the skip list stays empty. -/
theorem C7_silent_drop_counterexample :
    processCSVFile insAlwaysOk [["h"], ["x"]] = Except.ok ⟨0, [], []⟩ := by
  rfl

/-- C7, amended.  Every processed row with at least two fields is accounted
for: over any successfully completed run, accepted records plus
reason-attributed skips exactly cover the rows with two or more fields.
Rows with fewer than two fields are dropped silently, outside the
report. -/
theorem C7_skip_accounting_amended (ins : InsertOracle) (rows : List (List String))
    (st st' : GoState)
    (h : processRows ins st rows = Except.ok st') :
    st'.recordCount + st'.skipped.length =
      st.recordCount + st.skipped.length +
        (rows.filter (fun r => decide (2 ≤ r.length))).length := by
  induction rows generalizing st with
  | nil =>
    cases h
    simp
  | cons row rest ih =>
    simp only [processRows] at h
    cases hstep : processRow ins st row with
    | error e => rw [hstep] at h; cases h
    | ok st2 =>
      rw [hstep] at h
      simp only at h
      have h1 := processRow_ok_count ins st row st2 hstep
      have h2 := ih st2 h
      by_cases hl : 2 ≤ row.length
      · rw [if_pos hl] at h1
        rw [List.filter_cons_of_pos (by simpa using hl), List.length_cons]
        omega
      · rw [if_neg hl] at h1
        rw [List.filter_cons_of_neg (by simpa using hl)]
        omega

/-- C7, witness for the amended claim: a run over an accepted row, a
one-field row and an unparsable row has one accepted record and one
attributed skip, covering exactly the two rows with two fields. -/
theorem C7_skip_accounting_amended_witness :
    (1 : Nat) + 1 = 0 + 0 +
      (([["1.0.0.0/24", "5"], ["x"], ["bad", "7"]] : List (List String)).filter
        (fun r => decide (2 ≤ r.length))).length :=
  C7_skip_accounting_amended insAlwaysOk [["1.0.0.0/24", "5"], ["x"], ["bad", "7"]] initState
    ⟨1, [("bad", SkipReason.invalidCIDR)], [(net1, ⟨some 5, none⟩)]⟩ rfl

/-- C8.  A row whose prefix field fails to parse is classified as skipped
with the invalid-CIDR reason, the raw (trimmed) prefix text is recorded
with the reason, and the run continues with the remaining rows from an
otherwise unchanged state. -/
theorem C8_invalid_cidr_skip (ins : InsertOracle) (st : GoState) (row : List String)
    (rest : List (List String))
    (hlen : 2 ≤ row.length) (hp : parseCIDR (rowNetworkText row) = none) :
    processRows ins st (row :: rest) =
      processRows ins
        { st with skipped := st.skipped ++ [(rowNetworkText row, SkipReason.invalidCIDR)] }
        rest := by
  have hstep : processRow ins st row =
      Except.ok
        { st with skipped := st.skipped ++ [(rowNetworkText row, SkipReason.invalidCIDR)] } := by
    unfold processRow
    rw [if_neg (by omega : ¬ row.length < 2), hp]
  simp only [processRows, hstep]

/-- C8, witness at the malformed prefix text `999.1.1.1/24`. -/
theorem C8_invalid_cidr_skip_witness :
    processRows insAlwaysOk initState [["999.1.1.1/24", "5"], ["1.0.0.0/24", "7"]] =
      processRows insAlwaysOk
        { initState with
          skipped := initState.skipped ++ [("999.1.1.1/24", SkipReason.invalidCIDR)] }
        [["1.0.0.0/24", "7"]] :=
  C8_invalid_cidr_skip insAlwaysOk initState ["999.1.1.1/24", "5"] [["1.0.0.0/24", "7"]]
    (by decide) (by decide)

/-- C9.  The routing-table parser keeps exactly the lines that parse as
JSON with truthy `CIDR` and `ASN` fields (so a line with ASN `0` or an
empty CIDR is excluded), and the kept entry's `Hits` is the original value
when truthy and defaults to `1` when absent or falsy — the per-line
classification `lineKeep`, applied independently to every line. -/
theorem C9_parse_table_characterization (ls : List (Option JEntry)) :
    parseTableData ls = ls.filterMap lineKeep := by
  induction ls with
  | nil => rfl
  | cons l rest ih =>
    cases l with
    | none => simpa [parseTableData, lineKeep, List.filterMap_cons] using ih
    | some e =>
      by_cases hc : truthyField e.CIDR && truthyField e.ASN
      · simp only [parseTableData, hc, if_true, List.filterMap_cons, lineKeep, jsOr,
          truthy_fieldVal, List.cons.injEq]
        exact ⟨trivial, ih⟩
      · simpa [parseTableData, hc, List.filterMap_cons, lineKeep] using ih

/-- C10.  When every kept entry's CIDR is a string (otherwise the JS code
throws), the stream handed to the MMDB builder is exactly the colon-free
(IPv4) entries in their original order followed by the colon-containing
(IPv6) entries in their original order. -/
theorem C10_v4_before_v6 (ls : List (Option JEntry))
    (h : (parseTableData ls).all isStrCIDR = true) :
    generateMMDBStream ls =
      some ((parseTableData ls).filter (fun e => !hasColonCIDR e) ++
        (parseTableData ls).filter hasColonCIDR) := by
  unfold generateMMDBStream
  rw [sep_eq _ h]

/-- C10, witness: an IPv6 line followed by an IPv4 line is reordered to the
IPv4 entry first. -/
theorem C10_v4_before_v6_witness :
    generateMMDBStream wLines =
      some ((parseTableData wLines).filter (fun e => !hasColonCIDR e) ++
        (parseTableData wLines).filter hasColonCIDR) :=
  C10_v4_before_v6 wLines (by decide)

end BGPDB
